import Mathlib

/-!
Shallow embedding of the Arduino-DelayLine sketch (src/DelayLine/DelayLine.ino)
and verification of its natural-language specification.

Modelling conventions:
- The target is an AVR (Atmega328-class) board: `unsigned int` is 16 bits,
  `char` is a signed 8-bit type, `int` is 16 bits.  Machine arithmetic is
  modelled on `Nat`/`Int` with an explicit `% 2^16` where the C code can wrap
  (the `TIMESTAMP() + latency_ms` sum); cursor arithmetic stays inside
  `[0, BUFFER_SIZE)` by the explicit wrap in the `INCREMENT` macro.
- The global mutable state of the sketch is gathered into `DLState`; each
  handler (`onevent`, `offevent`, one iteration of `loop`, `setConfig`,
  `serialEvent`) becomes a function from state to state.  The clock value
  (`TIMESTAMP()`, i.e. `(unsigned int) millis()`) is passed in as a `Nat`
  argument already truncated to 16 bits, exactly as the code reads it.
- The output pin (`TurnOn`/`TurnOff` on `outputPort`/`outputMask`) is
  modelled by the boolean field `out` (`true` = asserted).
- `serialEvent` additionally threads the interrupt-mask flag set by
  `cli()` / cleared by `sei()`, so that the masking discipline of the
  function is visible in the model.
-/

/-- `#define BUFFER_SIZE 720` -/
def BUFFER_SIZE : Nat := 720

/-- `#define DELAY_FACTOR 20` -/
def DELAY_FACTOR : Nat := 20

/-- Modulus of the AVR `unsigned int` (16 bits). -/
def UINT_MOD : Nat := 65536

/-- `#define FLAG_ENABLE ((char)0x20)` -/
def FLAG_ENABLE : Nat := 0x20

/-- `#define FLAG_EXPMODE ((char)0x10)` -/
def FLAG_EXPMODE : Nat := 0x10

/-- `#define FLAG_DELAY ((char)0x0F)` -/
def FLAG_DELAY : Nat := 0x0F

/-- `#define FLAG_EXP ((char)0x0C)` -/
def FLAG_EXP : Nat := 0x0C

/-- `#define FLAG_EXP1 ((char)0x08)` -/
def FLAG_EXP1 : Nat := 0x08

/-- `#define FLAG_EXP0 ((char)0x04)` -/
def FLAG_EXP0 : Nat := 0x04

/-- `#define FLAG_FRAC1 ((char)0x02)` -/
def FLAG_FRAC1 : Nat := 0x02

/-- `#define FLAG_FRAC0 ((char)0x01)` -/
def FLAG_FRAC0 : Nat := 0x01

/-- `#define HasDelay(CF) ((CF) & FLAG_DELAY)` — used as a boolean. -/
def hasDelayFlag (cf : Nat) : Bool := cf &&& FLAG_DELAY != 0

/-- `#define GetExponent(CF) (((CF) & FLAG_EXP)? ((((CF) & FLAG_EXP1)?100:1) * (((CF) & FLAG_EXP0)?10:1)) : 1)` -/
def getExponent (cf : Nat) : Nat :=
  if cf &&& FLAG_EXP != 0 then
    (if cf &&& FLAG_EXP1 != 0 then 100 else 1) *
      (if cf &&& FLAG_EXP0 != 0 then 10 else 1)
  else 1

/-- `#define GetFraction(CF) ((((CF) & FLAG_FRAC1)? 4:1) * (((CF) & FLAG_FRAC0)? 2:1))` -/
def getFraction (cf : Nat) : Nat :=
  (if cf &&& FLAG_FRAC1 != 0 then 4 else 1) *
    (if cf &&& FLAG_FRAC0 != 0 then 2 else 1)

/-- `#define AsLinear(CF) (((uint8_t)((CF) & FLAG_DELAY)) * (DELAY_FACTOR))` -/
def asLinear (cf : Nat) : Nat := (cf &&& FLAG_DELAY) * DELAY_FACTOR

/-- `#define INCREMENT(OF) if((++(OF)) == BUFFER_SIZE) (OF) = 0;` -/
def increment (of : Nat) : Nat := if of + 1 = BUFFER_SIZE then 0 else of + 1

/-- `#define WaitingForOnEvent(OF) ((((int)OF) & 0x01) == 0)` -/
def waitingForOnEvent (of : Nat) : Bool := of % 2 == 0

/-- `#define WaitingForOffEvent(OF) ((((int)OF) & 0x01) != 0)` -/
def waitingForOffEvent (of : Nat) : Bool := of % 2 != 0

/-- The three latency-setting globals written by `setConfig`:
`volatile bool enabled; volatile bool hasDelay; volatile unsigned int latency_ms;`. -/
structure Config where
  enabled : Bool
  hasDelay : Bool
  latency_ms : Nat
deriving DecidableEq, Repr

/-- The pure part of `setConfig(const char& ch)`: how the three configuration
globals are computed from the received flag value.  In the sketch:
```c
enabled  = ((ch & FLAG_ENABLE) != 0);
hasDelay = HasDelay(ch);
if (!hasDelay) { latency_ms = 0; }
else if (ch & FLAG_EXPMODE) { latency_ms = GetExponent(ch) * GetFraction(ch); }
else { latency_ms = AsLinear(ch); }
```
The products are assigned to a 16-bit `unsigned int`, hence the `% UINT_MOD`
(all reachable values are at most 8000, so the reduction never triggers). -/
def decodeConfig (ch : Nat) : Config :=
  { enabled := ch &&& FLAG_ENABLE != 0
    hasDelay := hasDelayFlag ch
    latency_ms :=
      if !hasDelayFlag ch then 0
      else if ch &&& FLAG_EXPMODE != 0 then
        (getExponent ch * getFraction ch) % UINT_MOD
      else asLinear ch % UINT_MOD }

/-- The global mutable state of the sketch:
the scheduler ring buffer, its two cursors, the three configuration globals,
and the state of the output pin (`true` = asserted / `TurnOn`). -/
structure DLState where
  scheduler : Nat → Nat
  reader : Nat
  writer : Nat
  enabled : Bool
  hasDelay : Bool
  latency_ms : Nat
  out : Bool

/-- `void setConfig(const char& ch)` as a state transformer: decode the flag,
reset both cursors to 0 and force the output pin off (`TurnOff`).  The
scheduler array itself is not touched.  The trailing `Serial.print`
diagnostics have no effect on the modelled state. -/
def setConfig (ch : Nat) (s : DLState) : DLState :=
  { s with
    enabled := (decodeConfig ch).enabled
    hasDelay := (decodeConfig ch).hasDelay
    latency_ms := (decodeConfig ch).latency_ms
    reader := 0
    writer := 0
    out := false }

/-- `(char) c` for the `int` returned by `Serial.read()`: reduce to 8 bits and
reinterpret as the AVR signed `char`. -/
def toSignedChar (c : Int) : Int :=
  if c % 256 < 128 then c % 256 else c % 256 - 256

/-- `void serialEvent()` as a state transformer.  The argument `c` is the
value returned by `Serial.read()` (−1 when no byte is pending, otherwise the
received byte 0–255).  The second component of the result is the
interrupt-mask flag: `cli()` sets it, `sei()` clears it, and the early
`return` on `c < 0` leaves it as `cli()` left it.
```c
cli();
int c = Serial.read();
if (c < 0) { return; }
char ch = (char)c;
if (ch >= ' ') { setConfig(ch - ' '); }
sei();
```
-/
def serialEvent (c : Int) (s : DLState) : DLState × Bool :=
  if c < 0 then (s, true)
  else
    let ch := toSignedChar c
    if ch ≥ 32 then (setConfig (ch - 32).toNat s, false)
    else (s, false)

/-- `void onevent()` — the rising-edge interrupt handler — as a state
transformer.  `now` is the value of `TIMESTAMP()` (already 16-bit).
```c
if (!enabled) return;
if (hasDelay) {
  unsigned int target = TIMESTAMP() + latency_ms;
  scheduler[writer] = target; INCREMENT(writer);
  if (WaitingForOnEvent(writer)) { scheduler[writer] = target; INCREMENT(writer); }
} else { TurnOn(outputPort, outputMask); }
```
-/
def onevent (now : Nat) (s : DLState) : DLState :=
  if !s.enabled then s
  else if s.hasDelay then
    let target := (now + s.latency_ms) % UINT_MOD
    let sched1 := fun i => if i = s.writer then target else s.scheduler i
    let w1 := increment s.writer
    if waitingForOnEvent w1 then
      { s with
        scheduler := fun i => if i = w1 then target else sched1 i
        writer := increment w1 }
    else
      { s with scheduler := sched1, writer := w1 }
  else
    { s with out := true }

/-- `void offevent()` — the falling-edge interrupt handler — as a state
transformer; mirror image of `onevent` with `WaitingForOffEvent` and
`TurnOff`. -/
def offevent (now : Nat) (s : DLState) : DLState :=
  if !s.enabled then s
  else if s.hasDelay then
    let target := (now + s.latency_ms) % UINT_MOD
    let sched1 := fun i => if i = s.writer then target else s.scheduler i
    let w1 := increment s.writer
    if waitingForOffEvent w1 then
      { s with
        scheduler := fun i => if i = w1 then target else sched1 i
        writer := increment w1 }
    else
      { s with scheduler := sched1, writer := w1 }
  else
    { s with out := false }

/-- The `while ((reader != writer) && (scheduler[reader] <= current))
INCREMENT(reader);` loop of `loop()`, with explicit fuel.  Since `INCREMENT`
steps the cursor through the ring one slot at a time, the cursor meets
`writer` after at most `BUFFER_SIZE` steps whenever both start inside the
ring, so fuel `BUFFER_SIZE` makes the model agree with the C loop on every
state reachable in the sketch. -/
def advanceLoop (sched : Nat → Nat) (writer now : Nat) : Nat → Nat → Nat
  | r, 0 => r
  | r, fuel + 1 =>
    if r ≠ writer ∧ sched r ≤ now then advanceLoop sched writer now (increment r) fuel
    else r

/-- One iteration of `void loop()` as a state transformer.  `now` is the
single `TIMESTAMP()` sample (`unsigned int current`).
```c
if (!enabled || !hasDelay) return;
bool scheduleUpdate = (reader != writer);
if (scheduleUpdate) {
  unsigned int current = TIMESTAMP();
  while ((reader != writer) && (scheduler[reader] <= current)) INCREMENT(reader);
  if (WaitingForOnEvent(reader)) { TurnOff(...); } else { TurnOn(...); }
}
```
-/
def loopStep (now : Nat) (s : DLState) : DLState :=
  if !s.enabled || !s.hasDelay then s
  else if s.reader = s.writer then s
  else
    let r := advanceLoop s.scheduler s.writer now s.reader BUFFER_SIZE
    { s with reader := r, out := waitingForOffEvent r }

/-- `k`-fold iteration of the `INCREMENT` macro, used to describe which slots
the dispatcher's while-loop walked over. -/
def incIter : Nat → Nat → Nat
  | 0, r => r
  | k + 1, r => incIter k (increment r)

/-- A concrete state used by the closed witness/counterexample theorems. -/
def sampleState : DLState :=
  { scheduler := fun _ => 0
    reader := 5
    writer := 5
    enabled := false
    hasDelay := false
    latency_ms := 0
    out := true }

/-- A concrete delayed-mode state used by the closed witness theorems. -/
def delayedState : DLState :=
  { scheduler := fun _ => 0
    reader := 0
    writer := 1
    enabled := true
    hasDelay := true
    latency_ms := 20
    out := false }

/-- A concrete delayed-mode state (empty queue) used to exercise the clock
just before the 16-bit millisecond counter wraps. -/
def wrapStartState : DLState :=
  { scheduler := fun _ => 0
    reader := 0
    writer := 0
    enabled := true
    hasDelay := true
    latency_ms := 20
    out := false }

-- ======================================================================
-- Helper lemmas
-- ======================================================================

theorem increment_lt {r : Nat} (h : r < BUFFER_SIZE) : increment r < BUFFER_SIZE := by
  unfold increment BUFFER_SIZE at *
  split <;> omega

theorem increment_ne (r : Nat) : increment r ≠ r := by
  unfold increment BUFFER_SIZE
  split <;> omega

theorem increment_parity (r : Nat) : increment r % 2 = (r + 1) % 2 := by
  unfold increment BUFFER_SIZE
  split <;> omega

theorem advanceLoop_lt (sched : Nat → Nat) (w now : Nat) :
    ∀ fuel r, r < BUFFER_SIZE → advanceLoop sched w now r fuel < BUFFER_SIZE := by
  intro fuel
  induction fuel with
  | zero => intro r hr; exact hr
  | succ n ih =>
    intro r hr
    unfold advanceLoop
    split
    · exact ih (increment r) (increment_lt hr)
    · exact hr

theorem incIter_mod :
    ∀ k r, r < BUFFER_SIZE → incIter k r = (r + k) % BUFFER_SIZE := by
  intro k
  induction k with
  | zero =>
    intro r hr
    unfold incIter BUFFER_SIZE at *
    omega
  | succ n ih =>
    intro r hr
    show incIter n (increment r) = (r + (n + 1)) % BUFFER_SIZE
    rw [ih (increment r) (increment_lt hr)]
    unfold increment BUFFER_SIZE at *
    split <;> omega

/-- After at most `BUFFER_SIZE` steps of `INCREMENT`, a cursor inside the ring
reaches any other index inside the ring. -/
theorem incIter_reaches {r w : Nat} (hr : r < BUFFER_SIZE) (hw : w < BUFFER_SIZE) :
    ∃ m, m ≤ BUFFER_SIZE ∧ incIter m r = w := by
  refine ⟨(w + BUFFER_SIZE - r) % BUFFER_SIZE, ?_, ?_⟩
  · unfold BUFFER_SIZE
    omega
  · rw [incIter_mod _ r hr]
    unfold BUFFER_SIZE at *
    omega

/-- Full characterisation of the dispatcher's while-loop: the cursor lands on
a ring position reached by `k` increments from the start, every slot it
stepped over was due (`<= now`) and distinct from `writer`, and at the final
position the loop guard fails. -/
theorem advanceLoop_spec (sched : Nat → Nat) (w now : Nat) :
    ∀ fuel r, (∃ m, m ≤ fuel ∧ incIter m r = w) →
      ∃ k, advanceLoop sched w now r fuel = incIter k r ∧
        (∀ j, j < k → incIter j r ≠ w ∧ sched (incIter j r) ≤ now) ∧
        (advanceLoop sched w now r fuel = w ∨
          now < sched (advanceLoop sched w now r fuel)) := by
  intro fuel
  induction fuel with
  | zero =>
    intro r hreach
    obtain ⟨m, hm, hit⟩ := hreach
    interval_cases m
    refine ⟨0, rfl, by omega, Or.inl ?_⟩
    exact hit
  | succ n ih =>
    intro r hreach
    unfold advanceLoop
    by_cases hc : r ≠ w ∧ sched r ≤ now
    · rw [if_pos hc]
      obtain ⟨m, hm, hit⟩ := hreach
      have hm0 : m ≠ 0 := by
        intro h0
        subst h0
        exact hc.1 hit
      obtain ⟨m', rfl⟩ := Nat.exists_eq_succ_of_ne_zero hm0
      have hreach' : ∃ m'', m'' ≤ n ∧ incIter m'' (increment r) = w :=
        ⟨m', by omega, hit⟩
      obtain ⟨k, hk1, hk2, hk3⟩ := ih (increment r) hreach'
      refine ⟨k + 1, hk1, ?_, hk3⟩
      intro j hj
      cases j with
      | zero => exact ⟨hc.1, hc.2⟩
      | succ j' =>
        exact hk2 j' (by omega)
    · rw [if_neg hc]
      refine ⟨0, rfl, by omega, ?_⟩
      rcases Classical.em (r = w) with h | h
      · exact Or.inl h
      · right
        have := fun hle => hc ⟨h, hle⟩
        omega

theorem bool_mod_two_ne_eq (n : Nat) : ((n % 2 != 0) : Bool) = (n % 2 == 1) := by
  rcases Nat.mod_two_eq_zero_or_one n with h | h <;> simp [h]

/-- `onevent` in delayed mode from an even writer: single write, no
compensation. -/
theorem onevent_even (s : DLState) (now : Nat)
    (hen : s.enabled = true) (hhd : s.hasDelay = true) (hpar : s.writer % 2 = 0) :
    onevent now s =
      { s with
        scheduler := fun i =>
          if i = s.writer then (now + s.latency_ms) % UINT_MOD else s.scheduler i
        writer := increment s.writer } := by
  have h1 : increment s.writer % 2 = 1 := by
    have := increment_parity s.writer
    omega
  simp [onevent, hen, hhd, waitingForOnEvent, h1]

/-- `onevent` in delayed mode from an odd writer: the compensation write
fires, duplicating the target timestamp. -/
theorem onevent_odd (s : DLState) (now : Nat)
    (hen : s.enabled = true) (hhd : s.hasDelay = true) (hpar : s.writer % 2 = 1) :
    onevent now s =
      { s with
        scheduler := fun i =>
          if i = increment s.writer then (now + s.latency_ms) % UINT_MOD
          else if i = s.writer then (now + s.latency_ms) % UINT_MOD
          else s.scheduler i
        writer := increment (increment s.writer) } := by
  have h1 : increment s.writer % 2 = 0 := by
    have := increment_parity s.writer
    omega
  simp [onevent, hen, hhd, waitingForOnEvent, h1]

/-- `offevent` in delayed mode from an odd writer: single write, no
compensation. -/
theorem offevent_odd (s : DLState) (now : Nat)
    (hen : s.enabled = true) (hhd : s.hasDelay = true) (hpar : s.writer % 2 = 1) :
    offevent now s =
      { s with
        scheduler := fun i =>
          if i = s.writer then (now + s.latency_ms) % UINT_MOD else s.scheduler i
        writer := increment s.writer } := by
  have h1 : increment s.writer % 2 = 0 := by
    have := increment_parity s.writer
    omega
  simp [offevent, hen, hhd, waitingForOffEvent, h1]

/-- `offevent` in delayed mode from an even writer: the compensation write
fires, duplicating the target timestamp. -/
theorem offevent_even (s : DLState) (now : Nat)
    (hen : s.enabled = true) (hhd : s.hasDelay = true) (hpar : s.writer % 2 = 0) :
    offevent now s =
      { s with
        scheduler := fun i =>
          if i = increment s.writer then (now + s.latency_ms) % UINT_MOD
          else if i = s.writer then (now + s.latency_ms) % UINT_MOD
          else s.scheduler i
        writer := increment (increment s.writer) } := by
  have h1 : increment s.writer % 2 = 1 := by
    have := increment_parity s.writer
    omega
  simp [offevent, hen, hhd, waitingForOffEvent, h1]

theorem onevent_reader (now : Nat) (s : DLState) : (onevent now s).reader = s.reader := by
  simp only [onevent]
  split_ifs <;> rfl

theorem offevent_reader (now : Nat) (s : DLState) : (offevent now s).reader = s.reader := by
  simp only [offevent]
  split_ifs <;> rfl

theorem onevent_writer_cases (now : Nat) (s : DLState) :
    (onevent now s).writer = s.writer ∨
    (onevent now s).writer = increment s.writer ∨
    (onevent now s).writer = increment (increment s.writer) := by
  simp only [onevent]
  split_ifs <;> simp

theorem offevent_writer_cases (now : Nat) (s : DLState) :
    (offevent now s).writer = s.writer ∨
    (offevent now s).writer = increment s.writer ∨
    (offevent now s).writer = increment (increment s.writer) := by
  simp only [offevent]
  split_ifs <;> simp

theorem loopStep_writer (now : Nat) (s : DLState) : (loopStep now s).writer = s.writer := by
  simp only [loopStep]
  split_ifs <;> rfl

theorem loopStep_reader_cases (now : Nat) (s : DLState) :
    (loopStep now s).reader = s.reader ∨
    (loopStep now s).reader = advanceLoop s.scheduler s.writer now s.reader BUFFER_SIZE := by
  simp only [loopStep]
  split_ifs <;> simp

-- ======================================================================
-- Theorems
-- ======================================================================

/-- Claim C2: for every 6-bit flag value, configuration decoding is the total
function `decodeConfig` with no error case; `hasDelay` is false iff bits 0–3
are zero (and then `latency_ms = 0`), and when bits 0–3 are nonzero with bit 4
(`FEXP`) clear, `latency_ms = 20 * (f & 0xF)`. -/
theorem decodeConfig_linear_mode (f : Nat) (hf : f < 64) :
    ((decodeConfig f).hasDelay = false ↔ f &&& 0xF = 0) ∧
    (f &&& 0xF = 0 → (decodeConfig f).latency_ms = 0) ∧
    (f &&& 0xF ≠ 0 → f &&& 0x10 = 0 →
      (decodeConfig f).latency_ms = 20 * (f &&& 0xF)) := by
  revert hf
  revert f
  decide

/-- Witness for `decodeConfig_linear_mode` at the concrete flag 3. -/
theorem decodeConfig_linear_mode_witness :
    (decodeConfig 3).hasDelay = true ∧ (decodeConfig 3).latency_ms = 60 := by
  have h := decodeConfig_linear_mode 3 (by decide)
  exact ⟨by decide, by
    have := h.2.2 (by decide) (by decide)
    simpa using this⟩

/-- Claim C1: in exponential mode (bits 0–3 nonzero, bit 4 set), the decoded
latency equals `10^EXP * fraction` where `EXP` is bits 2–3 and the fraction
is the enumerated `(bit1 ? 4 : 1) * (bit0 ? 2 : 1)` of bits 0–1, for every
`(EXP, FRAC)` pair. -/
theorem decodeConfig_exponential_mode (f : Nat) (hf : f < 64)
    (hd : f &&& 0xF ≠ 0) (he : f &&& 0x10 ≠ 0) :
    (decodeConfig f).latency_ms =
      10 ^ (f / 4 % 4) *
        ((if f &&& 2 ≠ 0 then 4 else 1) * (if f &&& 1 ≠ 0 then 2 else 1)) := by
  revert hd he
  revert hf
  revert f
  decide

/-- Witness for `decodeConfig_exponential_mode` at the concrete flag 0x1F
(`EXP = 3`, `FRAC = 3`): latency 8000 ms. -/
theorem decodeConfig_exponential_mode_witness :
    (decodeConfig 0x1F).latency_ms = 8000 := by
  have h := decodeConfig_exponential_mode 0x1F (by decide) (by decide) (by decide)
  simpa using h

/-- Claim C8: whenever `enabled` is false, the rising-edge handler, the
falling-edge handler and one iteration of the polling loop are all no-ops:
the whole state (cursors, slot contents, output) is returned unchanged. -/
theorem disabled_mode_noop (s : DLState) (now : Nat) (h : s.enabled = false) :
    onevent now s = s ∧ offevent now s = s ∧ loopStep now s = s := by
  refine ⟨?_, ?_, ?_⟩ <;> simp [onevent, offevent, loopStep, h]

/-- Witness for `disabled_mode_noop` at a concrete disabled state. -/
theorem disabled_mode_noop_witness :
    onevent 7 sampleState = sampleState ∧ offevent 7 sampleState = sampleState ∧
      loopStep 7 sampleState = sampleState :=
  disabled_mode_noop sampleState 7 rfl

/-- Claim C4: in delayed mode, every completed `onevent` call leaves the
writer at odd parity and every completed `offevent` call leaves it at even
parity; the slot at the old writer always receives the target timestamp, and
when the compensation fires (same-role edge arriving on the wrong parity) the
next slot receives a duplicate of the same target. -/
theorem handler_parity_compensation (s : DLState) (now : Nat)
    (hen : s.enabled = true) (hhd : s.hasDelay = true) :
    (onevent now s).writer % 2 = 1 ∧
    (offevent now s).writer % 2 = 0 ∧
    (onevent now s).scheduler s.writer = (now + s.latency_ms) % UINT_MOD ∧
    (offevent now s).scheduler s.writer = (now + s.latency_ms) % UINT_MOD ∧
    (s.writer % 2 = 1 →
      (onevent now s).scheduler (increment s.writer) = (now + s.latency_ms) % UINT_MOD) ∧
    (s.writer % 2 = 0 →
      (offevent now s).scheduler (increment s.writer) = (now + s.latency_ms) % UINT_MOD) := by
  have hne : s.writer ≠ increment s.writer := (increment_ne s.writer).symm
  have hp1 := increment_parity s.writer
  have hp2 := increment_parity (increment s.writer)
  by_cases hpar : s.writer % 2 = 0
  · rw [onevent_even s now hen hhd hpar, offevent_even s now hen hhd hpar]
    refine ⟨by simpa using hp1.trans (by omega), by dsimp; omega, ?_, ?_, ?_, ?_⟩
    · simp
    · simp [hne]
    · intro h
      omega
    · intro _
      simp
  · have hpar1 : s.writer % 2 = 1 := by omega
    rw [onevent_odd s now hen hhd hpar1, offevent_odd s now hen hhd hpar1]
    refine ⟨by dsimp; omega, by dsimp; omega, ?_, ?_, ?_, ?_⟩
    · simp [hne]
    · simp
    · intro _
      simp
    · intro h
      omega

/-- Witness for `handler_parity_compensation` at a concrete delayed state. -/
theorem handler_parity_compensation_witness :
    (onevent 100 delayedState).writer % 2 = 1 ∧
    (offevent 100 delayedState).writer % 2 = 0 ∧
    (onevent 100 delayedState).scheduler delayedState.writer =
      (100 + delayedState.latency_ms) % UINT_MOD ∧
    (offevent 100 delayedState).scheduler delayedState.writer =
      (100 + delayedState.latency_ms) % UINT_MOD ∧
    (delayedState.writer % 2 = 1 →
      (onevent 100 delayedState).scheduler (increment delayedState.writer) =
        (100 + delayedState.latency_ms) % UINT_MOD) ∧
    (delayedState.writer % 2 = 0 →
      (offevent 100 delayedState).scheduler (increment delayedState.writer) =
        (100 + delayedState.latency_ms) % UINT_MOD) :=
  handler_parity_compensation delayedState 100 rfl rfl

/-- Claim C5: every operation of the sketch keeps both cursors inside
`[0, BUFFER_SIZE)`, so every `scheduler[reader]` / `scheduler[writer]` access
is in bounds — including when the writer laps the reader (silent overwrite of
the oldest entries), since the `INCREMENT` macro wraps strictly modulo
`BUFFER_SIZE`. -/
theorem cursor_bounds (s : DLState) (now ch : Nat)
    (hr : s.reader < BUFFER_SIZE) (hw : s.writer < BUFFER_SIZE) :
    ((onevent now s).reader < BUFFER_SIZE ∧ (onevent now s).writer < BUFFER_SIZE) ∧
    ((offevent now s).reader < BUFFER_SIZE ∧ (offevent now s).writer < BUFFER_SIZE) ∧
    ((loopStep now s).reader < BUFFER_SIZE ∧ (loopStep now s).writer < BUFFER_SIZE) ∧
    ((setConfig ch s).reader < BUFFER_SIZE ∧ (setConfig ch s).writer < BUFFER_SIZE) := by
  refine ⟨⟨?_, ?_⟩, ⟨?_, ?_⟩, ⟨?_, ?_⟩, ?_, ?_⟩
  · rw [onevent_reader]
    exact hr
  · rcases onevent_writer_cases now s with h | h | h <;> rw [h]
    · exact hw
    · exact increment_lt hw
    · exact increment_lt (increment_lt hw)
  · rw [offevent_reader]
    exact hr
  · rcases offevent_writer_cases now s with h | h | h <;> rw [h]
    · exact hw
    · exact increment_lt hw
    · exact increment_lt (increment_lt hw)
  · rcases loopStep_reader_cases now s with h | h <;> rw [h]
    · exact hr
    · exact advanceLoop_lt s.scheduler s.writer now BUFFER_SIZE s.reader hr
  · rw [loopStep_writer]
    exact hw
  · show (0 : Nat) < BUFFER_SIZE
    decide
  · show (0 : Nat) < BUFFER_SIZE
    decide

/-- Witness for `cursor_bounds` at a concrete state. -/
theorem cursor_bounds_witness :
    ((onevent 3 delayedState).reader < BUFFER_SIZE ∧
      (onevent 3 delayedState).writer < BUFFER_SIZE) ∧
    ((offevent 3 delayedState).reader < BUFFER_SIZE ∧
      (offevent 3 delayedState).writer < BUFFER_SIZE) ∧
    ((loopStep 3 delayedState).reader < BUFFER_SIZE ∧
      (loopStep 3 delayedState).writer < BUFFER_SIZE) ∧
    ((setConfig 48 delayedState).reader < BUFFER_SIZE ∧
      (setConfig 48 delayedState).writer < BUFFER_SIZE) :=
  cursor_bounds delayedState 3 48 (by decide) (by decide)

/-- Claim C7: in delayed mode with a non-empty schedule, one polling iteration
advances the reader past exactly the due slots — every slot it stepped over
was distinct from `writer` and had timestamp `<= now`, and at the final
position either the queue is empty or the next slot is not yet due — and then
drives the output from the resulting reader parity (even ⇒ deassert,
odd ⇒ assert).  The writer and the slot contents are untouched. -/
theorem dispatcher_advance (s : DLState) (now : Nat)
    (hen : s.enabled = true) (hhd : s.hasDelay = true) (hne : s.reader ≠ s.writer)
    (hr : s.reader < BUFFER_SIZE) (hw : s.writer < BUFFER_SIZE) :
    ∃ k, (loopStep now s).reader = incIter k s.reader ∧
      (∀ j, j < k → incIter j s.reader ≠ s.writer ∧
        s.scheduler (incIter j s.reader) ≤ now) ∧
      ((loopStep now s).reader = s.writer ∨
        now < s.scheduler ((loopStep now s).reader)) ∧
      (loopStep now s).out = ((loopStep now s).reader % 2 == 1) ∧
      (loopStep now s).writer = s.writer ∧
      (loopStep now s).scheduler = s.scheduler := by
  have hstep : loopStep now s =
      { s with
        reader := advanceLoop s.scheduler s.writer now s.reader BUFFER_SIZE
        out := waitingForOffEvent
          (advanceLoop s.scheduler s.writer now s.reader BUFFER_SIZE) } := by
    simp [loopStep, hen, hhd, hne]
  obtain ⟨k, h1, h2, h3⟩ :=
    advanceLoop_spec s.scheduler s.writer now BUFFER_SIZE s.reader (incIter_reaches hr hw)
  rw [hstep]
  exact ⟨k, h1, h2, h3, by simp [waitingForOffEvent, bool_mod_two_ne_eq], rfl, rfl⟩

/-- Witness for `dispatcher_advance` at a concrete delayed state with one due
entry. -/
theorem dispatcher_advance_witness :
    ∃ k, (loopStep 5 delayedState).reader = incIter k delayedState.reader ∧
      (∀ j, j < k → incIter j delayedState.reader ≠ delayedState.writer ∧
        delayedState.scheduler (incIter j delayedState.reader) ≤ 5) ∧
      ((loopStep 5 delayedState).reader = delayedState.writer ∨
        5 < delayedState.scheduler ((loopStep 5 delayedState).reader)) ∧
      (loopStep 5 delayedState).out = ((loopStep 5 delayedState).reader % 2 == 1) ∧
      (loopStep 5 delayedState).writer = delayedState.writer ∧
      (loopStep 5 delayedState).scheduler = delayedState.scheduler :=
  dispatcher_advance delayedState 5 rfl rfl (by decide) (by decide) (by decide)

/-- Claim C3 (refuted by the code): the dispatcher's dueness test is the
plain unsigned comparison `scheduler[reader] <= current`, which is not
wrap-safe.  Concretely: an edge at clock 65530 with latency 20 stores the
wrapped target 14; polling at clock 65531 — 19 ms before the target in
modulo-2^16 clock arithmetic — already pops the entry and asserts the
output early. -/
theorem loop_pops_early_on_wraparound :
    (onevent 65530 wrapStartState).scheduler 0 = 14 ∧
    (onevent 65530 wrapStartState).writer = 1 ∧
    (14 + UINT_MOD - 65531) % UINT_MOD = 19 ∧
    (loopStep 65531 (onevent 65530 wrapStartState)).reader = 1 ∧
    (loopStep 65531 (onevent 65530 wrapStartState)).out = true := by
  decide

/-- Claim C9 (refuted by the code): `serialEvent` calls `cli()` and then
returns without `sei()` when `Serial.read()` yields no byte, leaving
interrupts masked; the other paths (byte below 0x20, byte processed) do
re-enable them. -/
theorem serialEvent_masking_paths :
    (serialEvent (-1) sampleState).2 = true ∧
    (serialEvent 10 sampleState).2 = false ∧
    (serialEvent 65 sampleState).2 = false := by
  decide

/-- Claim C6 counterexample: the byte 0x80 satisfies `c >= 0x20` as a byte
value, yet `serialEvent` ignores it — the AVR signed-char comparison sees it
as −128 — leaving configuration, cursors and output all unchanged, while
the claimed decode of `0x80 - 0x20` would have enabled the device and reset
the cursors. -/
theorem serialEvent_ignores_byte_0x80 :
    (128 : Int) ≥ 0x20 ∧
    (decodeConfig 96).enabled = true ∧
    ((serialEvent 128 sampleState).1).enabled = false ∧
    ((serialEvent 128 sampleState).1).reader = 5 ∧
    ((serialEvent 128 sampleState).1).out = true := by
  decide

/-- Claim C6 (amended to bytes 0x20–0x7F): processing a received byte in that
range replaces the three configuration globals with the decode of `c - 0x20`,
resets both cursors to 0, forces the output deasserted, leaves the scheduler
slot contents untouched, and re-enables interrupts. -/
theorem serialEvent_config_change (c : Int) (s : DLState)
    (h1 : (32 : Int) ≤ c) (h2 : c ≤ 127) :
    ((serialEvent c s).1).enabled = (decodeConfig (c - 32).toNat).enabled ∧
    ((serialEvent c s).1).hasDelay = (decodeConfig (c - 32).toNat).hasDelay ∧
    ((serialEvent c s).1).latency_ms = (decodeConfig (c - 32).toNat).latency_ms ∧
    ((serialEvent c s).1).reader = 0 ∧
    ((serialEvent c s).1).writer = 0 ∧
    ((serialEvent c s).1).out = false ∧
    ((serialEvent c s).1).scheduler = s.scheduler ∧
    (serialEvent c s).2 = false := by
  have hc0 : ¬ c < 0 := by omega
  have hm : c % 256 = c := Int.emod_eq_of_lt (by omega) (by omega)
  have hts : toSignedChar c = c := by
    unfold toSignedChar
    rw [hm, if_pos (by omega)]
  simp [serialEvent, hc0, hts, h1, setConfig]

/-- Witness for `serialEvent_config_change` at the concrete byte 0x71. -/
theorem serialEvent_config_change_witness :
    ((serialEvent 113 sampleState).1).enabled =
      (decodeConfig ((113 : Int) - 32).toNat).enabled ∧
    ((serialEvent 113 sampleState).1).hasDelay =
      (decodeConfig ((113 : Int) - 32).toNat).hasDelay ∧
    ((serialEvent 113 sampleState).1).latency_ms =
      (decodeConfig ((113 : Int) - 32).toNat).latency_ms ∧
    ((serialEvent 113 sampleState).1).reader = 0 ∧
    ((serialEvent 113 sampleState).1).writer = 0 ∧
    ((serialEvent 113 sampleState).1).out = false ∧
    ((serialEvent 113 sampleState).1).scheduler = sampleState.scheduler ∧
    (serialEvent 113 sampleState).2 = false :=
  serialEvent_config_change 113 sampleState (by decide) (by decide)

theorem land_eq_of_mod64 (a b m : Nat) (hm : m < 64) (h : a % 64 = b % 64) :
    a &&& m = b &&& m := by
  apply Nat.eq_of_testBit_eq
  intro i
  rw [Nat.testBit_land, Nat.testBit_land]
  by_cases hi : i < 6
  · have ha : a.testBit i = (a % 64).testBit i := by
      rw [show (64 : Nat) = 2 ^ 6 by norm_num, Nat.testBit_mod_two_pow]
      simp [hi]
    have hb : b.testBit i = (b % 64).testBit i := by
      rw [show (64 : Nat) = 2 ^ 6 by norm_num, Nat.testBit_mod_two_pow]
      simp [hi]
    rw [ha, hb, h]
  · have hm6 : m < 2 ^ i := by
      have : (64 : Nat) ≤ 2 ^ i := by
        calc (64 : Nat) = 2 ^ 6 := by norm_num
        _ ≤ 2 ^ i := Nat.pow_le_pow_right (by norm_num) (by omega)
      omega
    have hm' : m.testBit i = false := Nat.testBit_lt_two_pow hm6
    simp [hm']

theorem decodeConfig_eq_of_mod64 (a b : Nat) (h : a % 64 = b % 64) :
    decodeConfig a = decodeConfig b := by
  have e32 := land_eq_of_mod64 a b 32 (by norm_num) h
  have e16 := land_eq_of_mod64 a b 16 (by norm_num) h
  have e15 := land_eq_of_mod64 a b 15 (by norm_num) h
  have e12 := land_eq_of_mod64 a b 12 (by norm_num) h
  have e8 := land_eq_of_mod64 a b 8 (by norm_num) h
  have e4 := land_eq_of_mod64 a b 4 (by norm_num) h
  have e2 := land_eq_of_mod64 a b 2 (by norm_num) h
  have e1 := land_eq_of_mod64 a b 1 (by norm_num) h
  simp only [decodeConfig, hasDelayFlag, getExponent, getFraction, asLinear,
    FLAG_ENABLE, FLAG_EXPMODE, FLAG_DELAY, FLAG_EXP, FLAG_EXP1, FLAG_EXP0,
    FLAG_FRAC1, FLAG_FRAC0]
  simp only [e32, e16, e15, e12, e8, e4, e2, e1]

theorem land63_eq_mod (n : Nat) : n &&& 63 = n % 64 := by
  have h := Nat.and_pow_two_sub_one_eq_mod n 6
  norm_num at h
  exact h

/-- Claim C10: the configuration produced by `setConfig` depends only on the
low six bits of its argument, and received bytes 0x60–0x7F are accepted by
`serialEvent` and configure the device exactly as the flag
`(c - 0x20) & 0x3F` would. -/
theorem setConfig_low_six_bits (a b : Nat) (hab : a % 64 = b % 64)
    (c : Int) (hc1 : (0x60 : Int) ≤ c) (hc2 : c ≤ 0x7F) (s t : DLState) :
    setConfig a s = setConfig b s ∧
    (serialEvent c t).1 = setConfig ((c - 0x20).toNat &&& 0x3F) t := by
  have hmain : ∀ u v : Nat, u % 64 = v % 64 →
      ∀ r : DLState, setConfig u r = setConfig v r := by
    intro u v huv r
    unfold setConfig
    rw [decodeConfig_eq_of_mod64 u v huv]
  refine ⟨hmain a b hab s, ?_⟩
  have hc0 : ¬ c < 0 := by omega
  have h32 : (32 : Int) ≤ c := by omega
  have hm : c % 256 = c := Int.emod_eq_of_lt (by omega) (by omega)
  have hts : toSignedChar c = c := by
    unfold toSignedChar
    rw [hm, if_pos (by omega)]
  have hse : (serialEvent c t).1 = setConfig (c - 32).toNat t := by
    simp [serialEvent, hc0, hts, h32]
  rw [hse]
  apply hmain
  rw [land63_eq_mod]
  omega

/-- Witness for `setConfig_low_six_bits` at flags 64 and 0 and the concrete
byte 0x60. -/
theorem setConfig_low_six_bits_witness :
    setConfig 64 sampleState = setConfig 0 sampleState ∧
    (serialEvent 96 sampleState).1 =
      setConfig (((96 : Int) - 0x20).toNat &&& 0x3F) sampleState :=
  setConfig_low_six_bits 64 0 (by decide) 96 (by decide) (by decide)
    sampleState sampleState
